import Mathlib

/-!
Verification of the OpsPilot agent orchestration subsystem.

The definitions below are a shallow embedding, translated from the Python
sources of the repository:

- opspilot/agent/tools/system.py : the SystemTool class (danger classifier,
  confirmation gate, secure executor).
- opspilot/agent/core.py : the AgentCore class (mode state, tool registry,
  capability gate, think and act phases, usage tracker).

Conventions used by the embedding:

- Asynchronous Python methods become pure Lean functions; each await point on
  an external collaborator (the confirmation callback, the spawned process,
  the LLM completion call) becomes an explicit function argument supplying
  the behavior of that collaborator for the call.
- Python exceptions that escape a method become an Except.error value; a
  method that catches all exceptions and returns a dictionary becomes a
  total function returning a structure.
- Python float arithmetic is modelled over the rationals.
- JSON payloads that the code passes through without inspecting (tool
  parameter schemas, decoded tool arguments) are modelled as opaque strings
  and key-value string lists.
-/

namespace OpsPilot

/-! ## Embedding of opspilot/agent/tools/system.py -/

/-- The set SystemTool.dangerous_keywords, in source order.  The Python code
stores these in a set whose iteration order is unspecified; the model fixes
the textual order of the source. -/
def dangerous_keywords : List String :=
  ["rm", "delete", "del", "format", "fdisk", "mkfs",
   "systemctl", "service", "init", "shutdown", "reboot",
   "kubectl", "helm", "docker rm", "docker kill",
   "chmod 777", "chown", "sudo", "su", "passwd",
   "crontab", "at", "batch", "nohup"]

/-- Containment of one character list inside another, modelling the Python
substring test used by the classifier. -/
def listContainsSub (needle : List Char) : List Char → Bool
  | [] => needle.isEmpty
  | c :: cs => needle.isPrefixOf (c :: cs) || listContainsSub needle cs

/-- Models the Python test for membership of a keyword in the lowercased
command text. -/
def strContainsSub (hay needle : String) : Bool :=
  listContainsSub needle.data hay.data

/-- Model of the str.lower call applied to the command; the danger keywords
are all ASCII, for which the per-character lowering agrees with Python. -/
def pyLower (s : String) : String :=
  String.mk (s.data.map Char.toLower)

/-- The first dangerous keyword found in the lowercased command, following
the scan in SystemTool.safety_check (underscore-prefixed in the source). -/
def firstDangerMatch (command : String) : Option String :=
  dangerous_keywords.find? (fun keyword => strContainsSub (pyLower command) keyword)

/-- SystemTool.request_confirmation (underscore-prefixed in the source): ask
the configured collaborator, defaulting to a denial when none is set. -/
def request_confirmation (confirmation_callback : Option (String → String → Bool))
    (command keyword : String) : Bool :=
  match confirmation_callback with
  | some callback => callback command keyword
  | none => false

/-- SystemTool.safety_check (underscore-prefixed in the source): scan for a
dangerous keyword; on a match, consult the confirmation collaborator when one
is configured, and otherwise allow the command (the permissive default). -/
def safety_check (confirmation_callback : Option (String → String → Bool))
    (command : String) : Bool :=
  match firstDangerMatch command with
  | some keyword =>
      match confirmation_callback with
      | some _ => request_confirmation confirmation_callback command keyword
      | none => true
  | none => true

/-! Tokenization.  The source calls shlex.split from the Python standard
library in POSIX mode; the model below reimplements that tokenizer:
whitespace separates tokens, single quotes group literally, double quotes
group with backslash escaping the double quote and the backslash, a
backslash outside quotes escapes the next character, and an unterminated
quote or trailing escape raises ValueError (modelled as Except.error with
the message the library raises). -/

def squote : Char := Char.ofNat 39

def dquote : Char := '"'

def bslash : Char := '\\'

def shlexWhitespace : List Char := [' ', Char.ofNat 9, Char.ofNat 13, Char.ofNat 10]

inductive SMode
  | norm
  | single
  | double

/-- Worker for the shlex.split model: mode, remaining characters, current
token accumulator, and whether a token is in progress. -/
def shlexAux : SMode → List Char → String → Bool → Except String (List String)
  | SMode.norm, [], acc, hasTok =>
      if hasTok then Except.ok [acc] else Except.ok []
  | SMode.norm, c :: cs, acc, hasTok =>
      if shlexWhitespace.contains c then
        if hasTok then
          match shlexAux SMode.norm cs "" false with
          | Except.ok rest => Except.ok (acc :: rest)
          | Except.error e => Except.error e
        else shlexAux SMode.norm cs "" false
      else if c == squote then shlexAux SMode.single cs acc true
      else if c == dquote then shlexAux SMode.double cs acc true
      else if c == bslash then
        match cs with
        | [] => Except.error "No escaped character"
        | d :: ds => shlexAux SMode.norm ds (acc.push d) true
      else shlexAux SMode.norm cs (acc.push c) true
  | SMode.single, [], _, _ => Except.error "No closing quotation"
  | SMode.single, c :: cs, acc, _ =>
      if c == squote then shlexAux SMode.norm cs acc true
      else shlexAux SMode.single cs (acc.push c) true
  | SMode.double, [], _, _ => Except.error "No closing quotation"
  | SMode.double, c :: cs, acc, _ =>
      if c == dquote then shlexAux SMode.norm cs acc true
      else if c == bslash then
        match cs with
        | [] => Except.error "No closing quotation"
        | d :: ds =>
            if d == dquote || d == bslash then shlexAux SMode.double ds (acc.push d) true
            else shlexAux SMode.double ds ((acc.push bslash).push d) true
      else shlexAux SMode.double cs (acc.push c) true

/-- Model of shlex.split applied to the command text. -/
def shlexSplit (command : String) : Except String (List String) :=
  shlexAux SMode.norm command.data "" false

/-- How a spawn request is issued to the operating system: either a direct
argument vector (asyncio.create_subprocess_exec) or a shell invocation.  The
embedding records which one each spawn uses; the source only ever uses the
direct form. -/
inductive SpawnMethod
  | direct (argv : List String)
  | shell (cmd : String)
deriving DecidableEq

/-- Externally observable actions of the executor on the operating system:
issuing a spawn request, sending the graceful termination signal
(process.terminate), or force-killing (process.kill). -/
inductive ExecEvent
  | spawn (method : SpawnMethod)
  | terminate
  | kill
deriving DecidableEq

/-- The environment behavior for a spawned process that produced a result
before the timeout: it either completed, or the spawn call itself raised
(command not found, permission denied). -/
inductive ProcDone
  | completes (rc : Int) (out err : String)
  | spawnFailure (msg : String)

/-- The environment behavior of one spawn: either some completed outcome
within the timeout, or still running when the timeout elapses. -/
inductive ProcBehavior
  | done (d : ProcDone)
  | exceedsTimeout

/-- Result dictionary of SystemTool.execute_command.  The Python code builds
dictionaries with different key sets on different paths; keys absent on a
path are modelled as none. -/
structure ExecResult where
  success : Bool
  error : Option String
  return_code : Option Int
  stdout : Option String
  stderr : Option String
  command : String
deriving DecidableEq

def joinArgs (args : List String) : String :=
  String.intercalate " " args

/-- SystemTool.capture_output (underscore-prefixed in the source), given the
behavior of the spawned process when it finished before the timeout. -/
def capture_output (args : List String) (d : ProcDone) : ExecResult :=
  match d with
  | ProcDone.completes rc out err =>
      { success := rc == 0, error := none, return_code := some rc,
        stdout := some out, stderr := some err, command := joinArgs args }
  | ProcDone.spawnFailure msg =>
      { success := false, error := none, return_code := some (-1),
        stdout := some "", stderr := some msg, command := joinArgs args }

/-- SystemTool.interactive_execution (underscore-prefixed in the source). -/
def interactive_execution (args : List String) (d : ProcDone) : ExecResult :=
  match d with
  | ProcDone.completes rc _ _ =>
      { success := rc == 0, error := none, return_code := some rc,
        stdout := some "", stderr := some "", command := joinArgs args }
  | ProcDone.spawnFailure msg =>
      { success := false, error := none, return_code := some (-1),
        stdout := some "", stderr := some msg, command := joinArgs args }

/-- The blocked-by-policy dictionary returned when the safety check denies
the command. -/
def blockedResult (command : String) : ExecResult :=
  { success := false, error := some "Command blocked by safety check",
    return_code := none, stdout := none, stderr := none, command := command }

/-- The distinct timeout failure dictionary: an error text mentioning the
timeout and no return code. -/
def timeoutResult (command : String) (timeout : ℚ) : ExecResult :=
  { success := false,
    error := some ("Command timed out after " ++ toString timeout ++ " seconds"),
    return_code := none, stdout := none, stderr := none, command := command }

/-- The generic exception dictionary built by the final except clause of
execute_command, here reached when tokenization raises ValueError. -/
def execErrorResult (command : String) (msg : String) : ExecResult :=
  { success := false, error := some msg,
    return_code := none, stdout := none, stderr := none, command := command }

/-- SystemTool.execute_command.  The collaborators are explicit: the
confirmation callback and the behavior of the operating system for a spawn
with the given argument vector.  The second component of the result is the
trace of operating-system actions the call performed; note that the
asyncio.TimeoutError handler in the source only builds the error dictionary,
so the timeout path records no terminate and no kill action. -/
def execute_command (confirmation_callback : Option (String → String → Bool))
    (oracle : List String → ProcBehavior) (command : String) (timeout : ℚ)
    (capture_output_flag : Bool) : ExecResult × List ExecEvent :=
  if safety_check confirmation_callback command then
    match shlexSplit command with
    | Except.error e => (execErrorResult command e, [])
    | Except.ok args =>
        match oracle args with
        | ProcBehavior.exceedsTimeout =>
            (timeoutResult command timeout, [ExecEvent.spawn (SpawnMethod.direct args)])
        | ProcBehavior.done d =>
            ((if capture_output_flag then capture_output args d
              else interactive_execution args d),
             [ExecEvent.spawn (SpawnMethod.direct args)])
  else
    (blockedResult command, [])

/-! ## Embedding of opspilot/agent/core.py -/

/-- AgentMode enum. -/
inductive AgentMode
  | PLAN
  | BUILD
deriving DecidableEq

instance : BEq AgentMode := ⟨fun a b => decide (a = b)⟩

/-- Message roles. -/
inductive Role
  | user
  | assistant
  | system
  | tool
deriving DecidableEq

/-- One tool call carried by an assistant reply.  In the source this is a
dictionary with an optional id and a function object holding a name and a
JSON text of arguments; the model carries the outcome of json.loads on that
text, with none standing for a text that fails to decode as a JSON object. -/
structure ToolCall where
  id : Option String
  name : String
  arguments : Option (List (String × String))
deriving DecidableEq

/-- The Message dataclass. -/
structure Message where
  role : Role
  content : String
  tool_calls : Option (List ToolCall)
  tool_call_id : Option String
deriving DecidableEq

/-- The Tool dataclass.  The handler becomes a pure function from decoded
named arguments to either the stringified result or the message of the
exception it raised. -/
structure Tool where
  name : String
  description : String
  parameters : String
  function : List (String × String) → Except String String
  requires_build_mode : Bool

/-- Usage payload of a completion response. -/
structure Usage where
  prompt_tokens : ℕ
  completion_tokens : ℕ
  total_tokens : ℕ
deriving DecidableEq

/-- The part of a completion response the core consumes: content, tool
calls, usage, and the model identifier used for pricing. -/
structure LLMResponse where
  content : Option String
  tool_calls : Option (List ToolCall)
  usage : Option Usage
  model : String
deriving DecidableEq

/-- The usage_stats dictionary.  Monetary cost is modelled over ℚ. -/
structure UsageStats where
  total_tokens : ℕ
  total_cost : ℚ
  requests_count : ℕ
  current_context_tokens : ℕ
deriving DecidableEq

/-- Modelled from the spec: the per-model price table behind the litellm
completion_cost helper that core.py calls.  That pricing data lives in the
external litellm dependency, not in this repository; the spec describes it
as a per-model table of prompt and completion rates per 1000 tokens with a
fixed default rate for unknown models. -/
structure PriceTable where
  rates : List (String × ℚ × ℚ)
  default_rate : ℚ

/-- Modelled from the spec: rate lookup with the fixed default for unknown
models. -/
def lookupRates (pt : PriceTable) (model : String) : ℚ × ℚ :=
  match pt.rates.find? (fun r => r.1 == model) with
  | some r => r.2
  | none => (pt.default_rate, pt.default_rate)

/-- Modelled from the spec: litellm completion_cost, the cost of one
response from its usage payload and the price table. -/
def completion_cost (pt : PriceTable) (response : LLMResponse) : ℚ :=
  match response.usage with
  | some usage =>
      (usage.prompt_tokens : ℚ) / 1000 * (lookupRates pt response.model).1
        + (usage.completion_tokens : ℚ) / 1000 * (lookupRates pt response.model).2
  | none => 0

/-- The mutable state of one AgentCore instance. -/
structure AgentCore where
  mode : AgentMode
  tools : List Tool
  messages : List Message
  usage_stats : UsageStats

/-- AgentCore.register_tool: insert by name with last-write-wins replacement
(the Python dict keeps the original position of a replaced key). -/
def register_tool_aux (t : Tool) : List Tool → List Tool
  | [] => [t]
  | u :: us => if u.name == t.name then t :: us else u :: register_tool_aux t us

def register_tool (s : AgentCore) (t : Tool) : AgentCore :=
  { s with tools := register_tool_aux t s.tools }

/-- One entry of the list built by AgentCore.get_available_tools. -/
structure ToolSpec where
  type : String
  name : String
  description : String
  parameters : String
deriving DecidableEq

def toolEntry (t : Tool) : ToolSpec :=
  { type := "function", name := t.name, description := t.description,
    parameters := t.parameters }

/-- The capability-gate predicate of the loop body in get_available_tools:
a tool is skipped exactly when it requires build mode while the mode is
PLAN. -/
def availablePred (mode : AgentMode) (t : Tool) : Bool :=
  !(t.requires_build_mode && (mode == AgentMode.PLAN))

/-- AgentCore.get_available_tools. -/
def get_available_tools (s : AgentCore) : List ToolSpec :=
  (s.tools.filter (availablePred s.mode)).map toolEntry

/-- AgentCore.switch_mode. -/
def switch_mode (s : AgentCore) (mode : AgentMode) : AgentCore :=
  { s with mode := mode }

/-- AgentCore.add_message. -/
def add_message (s : AgentCore) (role : Role) (content : String)
    (tool_calls : Option (List ToolCall)) (tool_call_id : Option String) : AgentCore :=
  { s with messages := s.messages ++
      [{ role := role, content := content, tool_calls := tool_calls,
         tool_call_id := tool_call_id }] }

/-- AgentCore.track_usage (underscore-prefixed in the source): when the
response carries a usage payload, add the total tokens, bump the request
count, add the completion cost, and overwrite the current context size with
the prompt token count; without a payload the stats are untouched. -/
def track_usage (s : AgentCore) (pt : PriceTable) (response : LLMResponse) : AgentCore :=
  match response.usage with
  | none => s
  | some usage =>
      { s with usage_stats :=
          { total_tokens := s.usage_stats.total_tokens + usage.total_tokens,
            total_cost := s.usage_stats.total_cost + completion_cost pt response,
            requests_count := s.usage_stats.requests_count + 1,
            current_context_tokens := usage.prompt_tokens } }

/-- AgentCore.think.  The completion call is an explicit collaborator input:
Except.ok is a response, Except.error is any exception the call raised
(timeout, transport error, malformed response extraction).  The method first
appends the user message; on success it tracks usage and appends the
assistant reply with its tool calls; on failure it appends an assistant
message carrying the error text.  Either way it returns the appended text. -/
def think (s : AgentCore) (pt : PriceTable) (user_input : String)
    (llm : Except String LLMResponse) : AgentCore × String :=
  match llm with
  | Except.ok response =>
      (add_message (track_usage (add_message s Role.user user_input none none) pt response)
        Role.assistant ((response.content).getD "") response.tool_calls none,
       (response.content).getD "")
  | Except.error e =>
      (add_message (add_message s Role.user user_input none none)
        Role.assistant ("AI Error: " ++ e) none none,
       "AI Error: " ++ e)

def quoteName (name : String) : String :=
  String.singleton squote ++ name ++ String.singleton squote

/-- AgentCore.tools lookup, modelling self.tools[tool_name]. -/
def lookupTool (tools : List Tool) (name : String) : Option Tool :=
  tools.find? (fun t => t.name == name)

/-- The text recorded for one tool call inside the try block of
AgentCore.act: a missing registry entry raises KeyError, whose string form
is the quoted name; any handler exception e becomes the text prefixed with
Tool Error. -/
def toolResultText (tools : List Tool) (tc : ToolCall)
    (tool_args : List (String × String)) : String :=
  match lookupTool tools tc.name with
  | none => "Tool Error: " ++ quoteName tc.name
  | some tool =>
      match tool.function tool_args with
      | Except.ok r => r
      | Except.error e => "Tool Error: " ++ e

/-- Error carried out of act when json.loads fails on the arguments text;
the source performs that decode outside the try block, so the exception
propagates out of act. -/
def jsonDecodeError (name : String) : String :=
  "json.loads failed for arguments of " ++ name

/-- AgentCore.act: serially execute the tool calls, appending one tool
message per call; the recursion threads the state so the messages already
appended persist even when a later decode failure propagates. -/
def act (s : AgentCore) (tool_calls : List ToolCall) :
    AgentCore × Except String (List (String × String)) :=
  match tool_calls with
  | [] => (s, Except.ok [])
  | tc :: rest =>
      match tc.arguments with
      | none => (s, Except.error (jsonDecodeError tc.name))
      | some tool_args =>
          match act (add_message s Role.tool (toolResultText s.tools tc tool_args)
              none (some (tc.id.getD "unknown"))) rest with
          | (s2, Except.ok results) =>
              (s2, Except.ok ((tc.id.getD "unknown", toolResultText s.tools tc tool_args)
                :: results))
          | (s2, Except.error e) => (s2, Except.error e)

/-- AgentCore.process: think, then, when the appended assistant message
carries a nonempty list of tool calls, act and think again with an empty
user input.  The second component is Except.ok with the returned text, or
Except.error when act let a decode failure propagate. -/
def process (s : AgentCore) (pt : PriceTable) (user_input : String)
    (llm1 llm2 : Except String LLMResponse) : AgentCore × Except String String :=
  match think s pt user_input llm1 with
  | (s1, response) =>
      match s1.messages.getLast? with
      | none => (s1, Except.ok response)
      | some last_message =>
          match last_message.tool_calls with
          | some (tc :: rest) =>
              match act s1 (tc :: rest) with
              | (s2, Except.error e) => (s2, Except.error e)
              | (s2, Except.ok _) =>
                  match think s2 pt "" llm2 with
                  | (s3, response2) => (s3, Except.ok response2)
          | _ => (s1, Except.ok response)

/-! ## Helper lemmas -/

lemma getLast?_append_one {α : Type} (l : List α) (a : α) :
    (l ++ [a]).getLast? = some a := by
  induction l with
  | nil => rfl
  | cons x xs ih =>
      cases xs with
      | nil => rfl
      | cons y ys => simpa using ih

lemma safety_check_none_eq (command : String) :
    safety_check none command = true := by
  rw [safety_check]
  cases firstDangerMatch command <;> rfl

lemma safety_check_some_eq (f : String → String → Bool) (command keyword : String)
    (hk : firstDangerMatch command = some keyword) :
    safety_check (some f) command = f command keyword := by
  rw [safety_check, hk]
  rfl

lemma execute_gate_false (confirmation_callback : Option (String → String → Bool))
    (oracle : List String → ProcBehavior) (command : String) (timeout : ℚ) (cap : Bool)
    (hsafe : safety_check confirmation_callback command = false) :
    execute_command confirmation_callback oracle command timeout cap
      = (blockedResult command, []) := by
  simp [execute_command, hsafe]

lemma execute_gate_true_events (confirmation_callback : Option (String → String → Bool))
    (oracle : List String → ProcBehavior) (command : String) (timeout : ℚ) (cap : Bool)
    (args : List String)
    (hsafe : safety_check confirmation_callback command = true)
    (hs : shlexSplit command = Except.ok args) :
    (execute_command confirmation_callback oracle command timeout cap).2
      = [ExecEvent.spawn (SpawnMethod.direct args)] := by
  simp only [execute_command, hsafe, if_true, hs]
  cases oracle args with
  | exceedsTimeout => rfl
  | done d => rfl

/-! ## Claim theorems: the secure executor -/

/-- C1: for a command containing a dangerous keyword (first match keyword)
whose text tokenizes, execute_command issues the spawn request exactly when
the configured confirmation collaborator returns true for the command and
the matched keyword, or when no collaborator is configured; when the
collaborator returns false the result is the distinct blocked-by-policy
failure with success false and no spawn request is ever issued. -/
theorem dangerous_command_gate
    (confirmation_callback : Option (String → String → Bool))
    (oracle : List String → ProcBehavior) (command : String) (timeout : ℚ)
    (cap : Bool) (keyword : String) (args : List String)
    (hk : firstDangerMatch command = some keyword)
    (hs : shlexSplit command = Except.ok args) :
    ((confirmation_callback = none
        ∨ ∃ f, confirmation_callback = some f ∧ f command keyword = true)
      ↔ ExecEvent.spawn (SpawnMethod.direct args)
          ∈ (execute_command confirmation_callback oracle command timeout cap).2)
    ∧ (∀ f, confirmation_callback = some f → f command keyword = false →
        (execute_command confirmation_callback oracle command timeout cap).1
            = blockedResult command
        ∧ (execute_command confirmation_callback oracle command timeout cap).1.success
            = false
        ∧ (execute_command confirmation_callback oracle command timeout cap).1.error
            = some "Command blocked by safety check"
        ∧ (execute_command confirmation_callback oracle command timeout cap).2 = []) := by
  cases confirmation_callback with
  | none =>
      have hev := execute_gate_true_events none oracle command timeout cap args
        (safety_check_none_eq command) hs
      constructor
      · constructor
        · intro _
          rw [hev]
          exact List.mem_singleton.mpr rfl
        · intro _
          exact Or.inl rfl
      · intro f hf
        exact absurd hf (by simp)
  | some f =>
      cases hf : f command keyword with
      | true =>
          have hev := execute_gate_true_events (some f) oracle command timeout cap args
            ((safety_check_some_eq f command keyword hk).trans hf) hs
          constructor
          · constructor
            · intro _
              rw [hev]
              exact List.mem_singleton.mpr rfl
            · intro _
              exact Or.inr ⟨f, rfl, hf⟩
          · intro g hg hgf
            have : g = f := by injection hg.symm
            subst this
            rw [hgf] at hf
            exact absurd hf (by simp)
      | false =>
          have hblocked := execute_gate_false (some f) oracle command timeout cap
            ((safety_check_some_eq f command keyword hk).trans hf)
          constructor
          · constructor
            · intro hor
              rcases hor with hnone | ⟨g, hg, hgt⟩
              · exact absurd hnone (by simp)
              · have hgeq : g = f := by
                  have := hg
                  injection this with h
                  exact h.symm
                subst hgeq
                rw [hgt] at hf
                exact absurd hf (by simp)
            · intro hmem
              rw [hblocked] at hmem
              exact absurd hmem (List.not_mem_nil _)
          · intro g hg hgf
            rw [hblocked]
            exact ⟨rfl, rfl, rfl, rfl⟩

/-- C3: at the failing input of the specification (a sleeping command with a
half-second timeout), execute_command returns the distinct timeout failure
(success false, a timeout error text, no return code), but the trace of
operating-system actions contains only the spawn request: the code sends no
graceful termination signal and no forced kill to the timed-out process, so
the child is left running. -/
theorem timeout_leaves_process_unsignalled :
    (execute_command none (fun _ => ProcBehavior.exceedsTimeout)
        "sleep 10" (1 / 2) true).1 = timeoutResult "sleep 10" (1 / 2)
    ∧ (execute_command none (fun _ => ProcBehavior.exceedsTimeout)
        "sleep 10" (1 / 2) true).1.success = false
    ∧ (execute_command none (fun _ => ProcBehavior.exceedsTimeout)
        "sleep 10" (1 / 2) true).1.return_code = none
    ∧ (execute_command none (fun _ => ProcBehavior.exceedsTimeout)
        "sleep 10" (1 / 2) true).2
        = [ExecEvent.spawn (SpawnMethod.direct ["sleep", "10"])]
    ∧ ExecEvent.terminate ∉ (execute_command none (fun _ => ProcBehavior.exceedsTimeout)
        "sleep 10" (1 / 2) true).2
    ∧ ExecEvent.kill ∉ (execute_command none (fun _ => ProcBehavior.exceedsTimeout)
        "sleep 10" (1 / 2) true).2 := by
  refine ⟨rfl, rfl, rfl, rfl, ?_, ?_⟩ <;> decide

/-- C7: every operating-system action performed by execute_command is a
spawn request carrying the argument vector produced by tokenizing the
command text; no action ever invokes a shell. -/
theorem execute_never_uses_shell
    (confirmation_callback : Option (String → String → Bool))
    (oracle : List String → ProcBehavior) (command : String) (timeout : ℚ)
    (cap : Bool) (e : ExecEvent)
    (he : e ∈ (execute_command confirmation_callback oracle command timeout cap).2) :
    ∃ args, shlexSplit command = Except.ok args
      ∧ e = ExecEvent.spawn (SpawnMethod.direct args) := by
  by_cases hsafe : safety_check confirmation_callback command = true
  · cases hs : shlexSplit command with
    | error msg =>
        rw [execute_command] at he
        simp [hsafe, hs] at he
    | ok args =>
        refine ⟨args, rfl, ?_⟩
        rw [execute_gate_true_events confirmation_callback oracle command timeout cap
          args hsafe hs] at he
        exact List.mem_singleton.mp he
  · have hfalse : safety_check confirmation_callback command = false :=
      Bool.eq_false_iff.mpr hsafe
    rw [execute_gate_false confirmation_callback oracle command timeout cap hfalse] at he
    exact absurd he (List.not_mem_nil _)

/-! ## Claim theorems: mode gating and usage tracking -/

/-- C2: a registered build-only tool is excluded from get_available_tools
while the mode is PLAN and included while the mode is BUILD; a tool not
requiring build mode is included in either mode.  The uniqueness hypothesis
states that the registry is keyed by name, which register_tool maintains. -/
theorem build_mode_tool_filtering (s : AgentCore) (t : Tool)
    (ht : t ∈ s.tools)
    (huniq : ∀ u ∈ s.tools, u.name = t.name → u = t) :
    (t.requires_build_mode = true → s.mode = AgentMode.PLAN →
        toolEntry t ∉ get_available_tools s)
    ∧ (t.requires_build_mode = true → s.mode = AgentMode.BUILD →
        toolEntry t ∈ get_available_tools s)
    ∧ (t.requires_build_mode = false → toolEntry t ∈ get_available_tools s) := by
  refine ⟨?_, ?_, ?_⟩
  · intro hb hm hmem
    rw [get_available_tools] at hmem
    obtain ⟨u, hu, hue⟩ := List.mem_map.mp hmem
    have hufil := List.mem_filter.mp hu
    have hname : u.name = t.name := by
      have := congrArg ToolSpec.name hue
      simpa [toolEntry] using this
    have heq : u = t := huniq u hufil.1 hname
    subst heq
    have := hufil.2
    rw [availablePred, hb, hm] at this
    simp [BEq.beq] at this
  · intro hb hm
    rw [get_available_tools]
    refine List.mem_map_of_mem toolEntry (List.mem_filter.mpr ⟨ht, ?_⟩)
    rw [availablePred, hb, hm]
    simp [BEq.beq]
  · intro hb
    rw [get_available_tools]
    refine List.mem_map_of_mem toolEntry (List.mem_filter.mpr ⟨ht, ?_⟩)
    rw [availablePred, hb]
    simp

/-- C9: starting from PLAN mode, switching to BUILD and back to PLAN leaves
the get_available_tools result unchanged. -/
theorem mode_round_trip (s : AgentCore) (h : s.mode = AgentMode.PLAN) :
    get_available_tools (switch_mode (switch_mode s AgentMode.BUILD) AgentMode.PLAN)
      = get_available_tools s := by
  simp [get_available_tools, switch_mode, h]

/-- C8: on a response carrying a usage payload, the tracker adds the
price-table cost (prompt and completion rates per 1000 tokens, default rate
for unknown models) to the cumulative cost, increments the request count,
accumulates total tokens, and overwrites current_context_tokens with the
prompt token count. -/
theorem track_usage_spec (s : AgentCore) (pt : PriceTable) (response : LLMResponse)
    (usage : Usage) (h : response.usage = some usage) :
    (track_usage s pt response).usage_stats =
      { total_tokens := s.usage_stats.total_tokens + usage.total_tokens,
        total_cost := s.usage_stats.total_cost +
          ((usage.prompt_tokens : ℚ) / 1000 * (lookupRates pt response.model).1
            + (usage.completion_tokens : ℚ) / 1000 * (lookupRates pt response.model).2),
        requests_count := s.usage_stats.requests_count + 1,
        current_context_tokens := usage.prompt_tokens } := by
  simp [track_usage, completion_cost, h]

/-! ## Helper definitions and lemmas for the think and act phases -/

/-- The message appended by think for the user input. -/
def userMessage (content : String) : Message :=
  { role := Role.user, content := content, tool_calls := none, tool_call_id := none }

/-- The assistant message appended by think from a successful response. -/
def assistantReply (response : LLMResponse) : Message :=
  { role := Role.assistant, content := (response.content).getD "",
    tool_calls := response.tool_calls, tool_call_id := none }

/-- The assistant message appended by think when the completion call
raised. -/
def assistantError (e : String) : Message :=
  { role := Role.assistant, content := "AI Error: " ++ e,
    tool_calls := none, tool_call_id := none }

/-- The tool message act appends for one tool call with decodable
arguments. -/
def actMessage (tools : List Tool) (tc : ToolCall) : Message :=
  { role := Role.tool,
    content := toolResultText tools tc ((tc.arguments).getD []),
    tool_calls := none, tool_call_id := some ((tc.id).getD "unknown") }

/-- The result entry act records for one tool call with decodable
arguments. -/
def actRecord (tools : List Tool) (tc : ToolCall) : String × String :=
  ((tc.id).getD "unknown", toolResultText tools tc ((tc.arguments).getD []))

@[simp] lemma add_message_messages (s : AgentCore) (r : Role) (c : String)
    (tcs : Option (List ToolCall)) (tid : Option String) :
    (add_message s r c tcs tid).messages
      = s.messages ++ [{ role := r, content := c, tool_calls := tcs, tool_call_id := tid }] :=
  rfl

@[simp] lemma add_message_tools (s : AgentCore) (r : Role) (c : String)
    (tcs : Option (List ToolCall)) (tid : Option String) :
    (add_message s r c tcs tid).tools = s.tools :=
  rfl

@[simp] lemma track_usage_messages (s : AgentCore) (pt : PriceTable) (r : LLMResponse) :
    (track_usage s pt r).messages = s.messages := by
  cases h : r.usage <;> simp [track_usage, h]

@[simp] lemma track_usage_tools (s : AgentCore) (pt : PriceTable) (r : LLMResponse) :
    (track_usage s pt r).tools = s.tools := by
  cases h : r.usage <;> simp [track_usage, h]

/-- Specification of act on a list of calls whose arguments all decode: it
returns normally, appends exactly the per-call tool messages in order, and
records the per-call results in order, leaving the rest of the state
unchanged. -/
lemma act_ok_spec (s : AgentCore) (calls : List ToolCall)
    (h : ∀ c ∈ calls, (c.arguments).isSome) :
    act s calls =
      ({ s with messages := s.messages ++ calls.map (actMessage s.tools) },
       Except.ok (calls.map (actRecord s.tools))) := by
  induction calls generalizing s with
  | nil => simp [act]
  | cons tc rest ih =>
      obtain ⟨args, hargs⟩ := Option.isSome_iff_exists.mp (h tc (List.mem_cons_self _ _))
      have hrest : ∀ c ∈ rest, (c.arguments).isSome :=
        fun c hc => h c (List.mem_cons_of_mem _ hc)
      simp only [act, hargs]
      simp only [ih _ hrest]
      simp [add_message, actMessage, actRecord, hargs]

lemma think_ok_messages (s : AgentCore) (pt : PriceTable) (input : String)
    (response : LLMResponse) :
    (think s pt input (Except.ok response)).1.messages
      = s.messages ++ [userMessage input, assistantReply response] := by
  simp [think, userMessage, assistantReply]

lemma think_ok_tools (s : AgentCore) (pt : PriceTable) (input : String)
    (response : LLMResponse) :
    (think s pt input (Except.ok response)).1.tools = s.tools := by
  simp [think]

lemma think_error_messages (s : AgentCore) (pt : PriceTable) (input e : String) :
    (think s pt input (Except.error e)).1.messages
      = s.messages ++ [userMessage input, assistantError e] := by
  simp [think, userMessage, assistantError]

/-- The follow-up assistant message appended by the second think phase, as a
function of the second completion outcome. -/
def followupMessage (llm2 : Except String LLMResponse) : Message :=
  match llm2 with
  | Except.ok r2 => assistantReply r2
  | Except.error e => assistantError e

/-- The text returned by the second think phase. -/
def followupText (llm2 : Except String LLMResponse) : String :=
  match llm2 with
  | Except.ok r2 => (r2.content).getD ""
  | Except.error e => "AI Error: " ++ e

lemma think_generic (s : AgentCore) (pt : PriceTable) (input : String)
    (llm : Except String LLMResponse) :
    (think s pt input llm).1.messages
        = s.messages ++ [userMessage input, followupMessage llm]
      ∧ (think s pt input llm).2 = followupText llm := by
  cases llm with
  | ok r => exact ⟨think_ok_messages s pt input r, rfl⟩
  | error e => exact ⟨think_error_messages s pt input e, rfl⟩

/-- Specification of one process call whose first completion reply carries a
nonempty list of tool calls, all of whose arguments decode: the history
grows by the user message, the assistant message carrying the calls, one
tool message per call in order, the empty continuation user message, and the
follow-up assistant message; the returned value is the follow-up text. -/
lemma process_with_calls_spec (s : AgentCore) (pt : PriceTable) (input : String)
    (response : LLMResponse) (tc : ToolCall) (rest : List ToolCall)
    (llm2 : Except String LLMResponse)
    (hcalls : response.tool_calls = some (tc :: rest))
    (hargs : ∀ c ∈ tc :: rest, (c.arguments).isSome) :
    (process s pt input (Except.ok response) llm2).1.messages
        = s.messages
          ++ [userMessage input, assistantReply response]
          ++ (tc :: rest).map (actMessage s.tools)
          ++ [userMessage "", followupMessage llm2]
      ∧ (process s pt input (Except.ok response) llm2).2
          = Except.ok (followupText llm2) := by
  rcases hth : think s pt input (Except.ok response) with ⟨s1, r1⟩
  have h1m : s1.messages = s.messages ++ [userMessage input, assistantReply response] := by
    have hm := think_ok_messages s pt input response
    rw [hth] at hm
    exact hm
  have h1t : s1.tools = s.tools := by
    have htl := think_ok_tools s pt input response
    rw [hth] at htl
    exact htl
  have hlast : s1.messages.getLast? = some (assistantReply response) := by
    rw [h1m, show s.messages ++ [userMessage input, assistantReply response]
      = (s.messages ++ [userMessage input]) ++ [assistantReply response] by simp,
      getLast?_append_one]
  have hreply : (assistantReply response).tool_calls = some (tc :: rest) := hcalls
  have hact := act_ok_spec s1 (tc :: rest) hargs
  rcases hactE : act s1 (tc :: rest) with ⟨s2, ar⟩
  rw [hactE] at hact
  obtain ⟨hs2, har⟩ := Prod.mk.injEq .. |>.mp hact
  rcases hth2 : think s2 pt "" llm2 with ⟨s3, r3⟩
  have h3 := think_generic s2 pt "" llm2
  rw [hth2] at h3
  obtain ⟨h3m, h3r⟩ := h3
  simp only [process, hth, hlast, hreply, hactE, har, hth2]
  constructor
  · rw [h3m, hs2]
    simp [h1m, h1t, List.append_assoc]
  · exact congrArg Except.ok h3r

/-! ## Claim theorems: the act phase and the process loop -/

/-- C4: on a list of tool calls whose JSON argument texts all decode (the
well-formedness the ToolCall data model prescribes), act returns normally
and appends exactly one tool-role message per call, in the order the calls
were given, with the matching back-reference id; a call whose handler fails
or whose tool is missing still yields its message and does not prevent the
remaining calls from being executed and answered, since no hypothesis
constrains the handler outcomes. -/
theorem act_one_result_per_call (s : AgentCore) (calls : List ToolCall)
    (h : ∀ c ∈ calls, (c.arguments).isSome) :
    (act s calls).2 = Except.ok (calls.map (actRecord s.tools))
    ∧ (act s calls).1.messages = s.messages ++ calls.map (actMessage s.tools)
    ∧ (calls.map (actMessage s.tools)).length = calls.length
    ∧ ∀ c ∈ calls, (actMessage s.tools c).role = Role.tool
        ∧ (actMessage s.tools c).tool_call_id = some ((c.id).getD "unknown") := by
  have hs := act_ok_spec s calls h
  exact ⟨by rw [hs], by rw [hs], by simp, fun c _ => ⟨rfl, rfl⟩⟩

/-- C10: a tool call naming a tool absent from the registry, with decodable
arguments, does not make act fail: the appended tool message is prefixed
with Tool Error, a result is recorded under the back-reference id of the
call, and the remaining calls are still executed and answered. -/
theorem unknown_tool_error_continues (s : AgentCore) (tc : ToolCall)
    (rest : List ToolCall) (args : List (String × String))
    (hargs : tc.arguments = some args)
    (hmiss : lookupTool s.tools tc.name = none)
    (hrest : ∀ c ∈ rest, (c.arguments).isSome) :
    (act s (tc :: rest)).2
        = Except.ok (actRecord s.tools tc :: rest.map (actRecord s.tools))
    ∧ (act s (tc :: rest)).1.messages
        = s.messages ++ (actMessage s.tools tc :: rest.map (actMessage s.tools))
    ∧ (actMessage s.tools tc).content = "Tool Error: " ++ quoteName tc.name
    ∧ (∃ suffix, (actMessage s.tools tc).content = "Tool Error: " ++ suffix)
    ∧ (actRecord s.tools tc).1 = (tc.id).getD "unknown" := by
  have hall : ∀ c ∈ tc :: rest, (c.arguments).isSome := by
    intro c hc
    rcases List.mem_cons.mp hc with h1 | h2
    · subst h1
      simp [hargs]
    · exact hrest c h2
  have hs := act_ok_spec s (tc :: rest) hall
  have hcontent : (actMessage s.tools tc).content
      = "Tool Error: " ++ quoteName tc.name := by
    simp [actMessage, toolResultText, hargs, hmiss]
  exact ⟨by rw [hs]; simp, by rw [hs]; simp, hcontent, ⟨quoteName tc.name, hcontent⟩, rfl⟩

/-- C6: a failing completion call never propagates out of process.  When the
first call fails, process returns normally with the AI Error text, having
appended the user message and a terminal assistant message carrying that
text.  When the first call succeeds with tool calls (with decodable
arguments) and the follow-up call fails, process again returns normally with
the AI Error text and the last appended message is the terminal assistant
error message. -/
theorem llm_failure_recovered (s : AgentCore) (pt : PriceTable)
    (user_input e : String) (llm2 : Except String LLMResponse)
    (response : LLMResponse) :
    (process s pt user_input (Except.error e) llm2
        = ({ s with messages := s.messages ++ [userMessage user_input, assistantError e] },
           Except.ok ("AI Error: " ++ e)))
    ∧ (∀ tc rest, response.tool_calls = some (tc :: rest) →
        (∀ c ∈ tc :: rest, (c.arguments).isSome) →
        (process s pt user_input (Except.ok response) (Except.error e)).2
            = Except.ok ("AI Error: " ++ e)
        ∧ (process s pt user_input (Except.ok response) (Except.error e)).1.messages.getLast?
            = some (assistantError e)) := by
  constructor
  · have hth : think s pt user_input (Except.error e)
        = ({ s with messages := s.messages ++ [userMessage user_input, assistantError e] },
           "AI Error: " ++ e) := by
      simp [think, add_message, userMessage, assistantError]
    have hlast : (s.messages ++ [userMessage user_input, assistantError e]).getLast?
        = some (assistantError e) := by
      rw [show s.messages ++ [userMessage user_input, assistantError e]
        = (s.messages ++ [userMessage user_input]) ++ [assistantError e] by simp,
        getLast?_append_one]
    have hnone : (assistantError e).tool_calls = none := rfl
    simp only [process, hth, hlast, hnone]
  · intro tc rest hcalls hargsAll
    have hp := process_with_calls_spec s pt user_input response tc rest
      (Except.error e) hcalls hargsAll
    refine ⟨?_, ?_⟩
    · rw [hp.2]
      rfl
    · have hgroup : s.messages
          ++ [userMessage user_input, assistantReply response]
          ++ (tc :: rest).map (actMessage s.tools)
          ++ [userMessage "", followupMessage (Except.error e)]
        = (s.messages
          ++ [userMessage user_input, assistantReply response]
          ++ (tc :: rest).map (actMessage s.tools)
          ++ [userMessage ""]) ++ [assistantError e] := by
        simp [followupMessage]
      rw [hp.1, hgroup, getLast?_append_one]

/-- C5 counterexample: a process call on an empty history whose first
completion reply carries exactly two tool calls grows the message history to
6 messages, not the 5 the claim states: think appends a user message even
for the empty continuation input of the follow-up phase. -/
theorem process_two_calls_counterexample :
    let tcA : ToolCall := { id := some "a", name := "t1", arguments := some [] }
    let tcB : ToolCall := { id := some "b", name := "t2", arguments := some [] }
    let resp : LLMResponse :=
      { content := some "calling", tool_calls := some [tcA, tcB],
        usage := none, model := "m" }
    let follow : LLMResponse :=
      { content := some "done", tool_calls := none, usage := none, model := "m" }
    let z : UsageStats :=
      { total_tokens := 0, total_cost := 0, requests_count := 0,
        current_context_tokens := 0 }
    let s0 : AgentCore := { mode := AgentMode.PLAN, tools := [], messages := [],
                            usage_stats := z }
    let pt0 : PriceTable := { rates := [], default_rate := 0 }
    (((resp.tool_calls).getD []).length = 2 ∧ s0.messages.length = 0)
    ∧ (process s0 pt0 "do X" (Except.ok resp) (Except.ok follow)).1.messages.length = 6
    ∧ ¬ ((process s0 pt0 "do X" (Except.ok resp) (Except.ok follow)).1.messages.length
          = 0 + 5) := by
  decide

/-- C5 amended: when the first completion reply of a process call carries
exactly two tool calls (with decodable arguments), the history grows by
exactly 6 messages: the user message, the assistant message carrying the
calls, the two tool-result messages in call order, the empty continuation
user message appended by the follow-up think phase, and the follow-up
assistant message. -/
theorem process_two_calls_growth (s : AgentCore) (pt : PriceTable) (input : String)
    (response : LLMResponse) (tc1 tc2 : ToolCall) (llm2 : Except String LLMResponse)
    (hcalls : response.tool_calls = some [tc1, tc2])
    (h1 : (tc1.arguments).isSome) (h2 : (tc2.arguments).isSome) :
    (process s pt input (Except.ok response) llm2).1.messages
        = s.messages ++ [userMessage input, assistantReply response,
            actMessage s.tools tc1, actMessage s.tools tc2,
            userMessage "", followupMessage llm2]
    ∧ (followupMessage llm2).role = Role.assistant
    ∧ (process s pt input (Except.ok response) llm2).1.messages.length
        = s.messages.length + 6 := by
  have hargs : ∀ c ∈ [tc1, tc2], (c.arguments).isSome := by
    intro c hc
    rcases List.mem_cons.mp hc with h | h
    · subst h
      exact h1
    · rcases List.mem_cons.mp h with h | h
      · subst h
        exact h2
      · exact absurd h (List.not_mem_nil c)
  have hp := process_with_calls_spec s pt input response tc1 [tc2] llm2 hcalls hargs
  have hmsgs : (process s pt input (Except.ok response) llm2).1.messages
      = s.messages ++ [userMessage input, assistantReply response,
          actMessage s.tools tc1, actMessage s.tools tc2,
          userMessage "", followupMessage llm2] := by
    rw [hp.1]
    simp [List.append_assoc]
  refine ⟨hmsgs, ?_, ?_⟩
  · cases llm2 <;> rfl
  · rw [hmsgs]
    simp

/-! ## Witnesses: concrete instantiations of the theorems with hypotheses -/

/-- Witness for the C1 gate theorem: a concrete dangerous command with a
denying collaborator is blocked with the distinct policy error and an empty
action trace. -/
theorem dangerous_command_gate_witness :
    let cb : Option (String → String → Bool) := some (fun _ _ => false)
    let oracle : List String → ProcBehavior :=
      fun _ => ProcBehavior.done (ProcDone.completes 0 "" "")
    firstDangerMatch "rm -rf /tmp/test" = some "rm"
    ∧ shlexSplit "rm -rf /tmp/test" = Except.ok ["rm", "-rf", "/tmp/test"]
    ∧ ((execute_command cb oracle "rm -rf /tmp/test" 30 true).1
          = blockedResult "rm -rf /tmp/test"
      ∧ (execute_command cb oracle "rm -rf /tmp/test" 30 true).1.success = false
      ∧ (execute_command cb oracle "rm -rf /tmp/test" 30 true).1.error
          = some "Command blocked by safety check"
      ∧ (execute_command cb oracle "rm -rf /tmp/test" 30 true).2 = []) := by
  intro cb oracle
  exact ⟨rfl, rfl,
    (dangerous_command_gate (some (fun _ _ => false))
        (fun _ => ProcBehavior.done (ProcDone.completes 0 "" "")) "rm -rf /tmp/test"
        30 true "rm" ["rm", "-rf", "/tmp/test"] rfl rfl).2
      (fun _ _ => false) rfl rfl⟩

/-- Witness for the C2 filtering theorem: a concrete build-only tool is
absent from the PLAN capability list and present in the BUILD one. -/
theorem build_mode_tool_filtering_witness :
    let t : Tool := { name := "execute_command", description := "d", parameters := "p",
                      function := fun _ => Except.ok "r", requires_build_mode := true }
    let z : UsageStats := { total_tokens := 0, total_cost := 0, requests_count := 0,
                            current_context_tokens := 0 }
    let sp : AgentCore := { mode := AgentMode.PLAN, tools := [t], messages := [],
                            usage_stats := z }
    let sb : AgentCore := { mode := AgentMode.BUILD, tools := [t], messages := [],
                            usage_stats := z }
    t ∈ sp.tools
    ∧ toolEntry t ∉ get_available_tools sp
    ∧ toolEntry t ∈ get_available_tools sb := by
  intro t z sp sb
  refine ⟨List.mem_singleton.mpr rfl, ?_, ?_⟩
  · exact (build_mode_tool_filtering sp t (List.mem_singleton.mpr rfl)
      (fun u hu _ => List.mem_singleton.mp hu)).1 rfl rfl
  · exact (build_mode_tool_filtering sb t (List.mem_singleton.mpr rfl)
      (fun u hu _ => List.mem_singleton.mp hu)).2.1 rfl rfl

/-- Witness for the C4 act theorem: two concrete calls, one whose handler
raises and one naming a missing tool, both answered in order. -/
theorem act_one_result_per_call_witness :
    let boom : Tool := { name := "boom", description := "d", parameters := "p",
                         function := fun _ => Except.error "boom failed",
                         requires_build_mode := false }
    let z : UsageStats := { total_tokens := 0, total_cost := 0, requests_count := 0,
                            current_context_tokens := 0 }
    let s0 : AgentCore := { mode := AgentMode.BUILD, tools := [boom], messages := [],
                            usage_stats := z }
    let c1 : ToolCall := { id := some "1", name := "boom", arguments := some [] }
    let c2 : ToolCall := { id := some "2", name := "missing", arguments := some [] }
    (∀ c ∈ [c1, c2], (c.arguments).isSome)
    ∧ (act s0 [c1, c2]).2 = Except.ok ([c1, c2].map (actRecord s0.tools))
    ∧ (act s0 [c1, c2]).1.messages = s0.messages ++ [c1, c2].map (actMessage s0.tools) := by
  intro boom z s0 c1 c2
  have h : ∀ c ∈ [c1, c2], (c.arguments).isSome := by decide
  exact ⟨h, (act_one_result_per_call s0 [c1, c2] h).1,
    (act_one_result_per_call s0 [c1, c2] h).2.1⟩

/-- Witness for the C5 amended theorem: a concrete two-call reply grows an
empty history by exactly 6 messages. -/
theorem process_two_calls_growth_witness :
    let z : UsageStats := { total_tokens := 0, total_cost := 0, requests_count := 0,
                            current_context_tokens := 0 }
    let s0 : AgentCore := { mode := AgentMode.PLAN, tools := [], messages := [],
                            usage_stats := z }
    let pt0 : PriceTable := { rates := [], default_rate := 0 }
    let tcA : ToolCall := { id := some "a", name := "t1", arguments := some [] }
    let tcB : ToolCall := { id := some "b", name := "t2", arguments := some [] }
    let resp : LLMResponse := { content := some "calling", tool_calls := some [tcA, tcB],
                                usage := none, model := "m" }
    let follow : LLMResponse := { content := some "done", tool_calls := none,
                                  usage := none, model := "m" }
    resp.tool_calls = some [tcA, tcB]
    ∧ (process s0 pt0 "do X" (Except.ok resp) (Except.ok follow)).1.messages.length
        = s0.messages.length + 6 := by
  intro z s0 pt0 tcA tcB resp follow
  exact ⟨rfl, (process_two_calls_growth s0 pt0 "do X" resp tcA tcB (Except.ok follow)
    rfl rfl rfl).2.2⟩

/-- Witness for the C6 recovery theorem: a concrete failing follow-up
completion is recovered into a terminal assistant error message. -/
theorem llm_failure_recovered_witness :
    let z : UsageStats := { total_tokens := 0, total_cost := 0, requests_count := 0,
                            current_context_tokens := 0 }
    let s0 : AgentCore := { mode := AgentMode.PLAN, tools := [], messages := [],
                            usage_stats := z }
    let pt0 : PriceTable := { rates := [], default_rate := 0 }
    let tc : ToolCall := { id := some "1", name := "t", arguments := some [] }
    let resp : LLMResponse := { content := some "c", tool_calls := some [tc],
                                usage := none, model := "m" }
    (process s0 pt0 "hi" (Except.ok resp) (Except.error "boom")).2
        = Except.ok ("AI Error: " ++ "boom")
    ∧ (process s0 pt0 "hi" (Except.ok resp) (Except.error "boom")).1.messages.getLast?
        = some (assistantError "boom") := by
  intro z s0 pt0 tc resp
  exact (llm_failure_recovered s0 pt0 "hi" "boom" (Except.error "boom") resp).2
    tc [] rfl (by decide)

/-- Witness for the C7 no-shell theorem: a command text full of shell
metacharacters is spawned directly with its tokenization as the argument
vector. -/
theorem execute_never_uses_shell_witness :
    ∃ args, shlexSplit "echo hello; ls /" = Except.ok args
      ∧ ExecEvent.spawn (SpawnMethod.direct ["echo", "hello;", "ls", "/"])
          = ExecEvent.spawn (SpawnMethod.direct args) :=
  execute_never_uses_shell none (fun _ => ProcBehavior.done (ProcDone.completes 0 "" ""))
    "echo hello; ls /" 30 true
    (ExecEvent.spawn (SpawnMethod.direct ["echo", "hello;", "ls", "/"])) (by decide)

/-- Witness for the C8 tracker theorem at a concrete priced model. -/
theorem track_usage_spec_witness :
    let z : UsageStats := { total_tokens := 0, total_cost := 0, requests_count := 0,
                            current_context_tokens := 0 }
    let s0 : AgentCore := { mode := AgentMode.PLAN, tools := [], messages := [],
                            usage_stats := z }
    let pt0 : PriceTable := { rates := [("gpt-4", (3, 6))], default_rate := 1 }
    let u0 : Usage := { prompt_tokens := 2000, completion_tokens := 1000,
                        total_tokens := 3000 }
    let r0 : LLMResponse := { content := some "ok", tool_calls := none,
                              usage := some u0, model := "gpt-4" }
    r0.usage = some u0
    ∧ (track_usage s0 pt0 r0).usage_stats
        = { total_tokens := s0.usage_stats.total_tokens + u0.total_tokens,
            total_cost := s0.usage_stats.total_cost +
              ((u0.prompt_tokens : ℚ) / 1000 * (lookupRates pt0 r0.model).1
                + (u0.completion_tokens : ℚ) / 1000 * (lookupRates pt0 r0.model).2),
            requests_count := s0.usage_stats.requests_count + 1,
            current_context_tokens := u0.prompt_tokens } := by
  intro z s0 pt0 u0 r0
  exact ⟨rfl, track_usage_spec s0 pt0 r0 u0 rfl⟩

/-- Witness for the C9 round-trip theorem at a concrete PLAN state. -/
theorem mode_round_trip_witness :
    let z : UsageStats := { total_tokens := 0, total_cost := 0, requests_count := 0,
                            current_context_tokens := 0 }
    let s0 : AgentCore := { mode := AgentMode.PLAN, tools := [], messages := [],
                            usage_stats := z }
    s0.mode = AgentMode.PLAN
    ∧ get_available_tools (switch_mode (switch_mode s0 AgentMode.BUILD) AgentMode.PLAN)
        = get_available_tools s0 := by
  intro z s0
  exact ⟨rfl, mode_round_trip s0 rfl⟩

/-- Witness for the C10 unknown-tool theorem at a concrete call naming a
tool missing from an empty registry. -/
theorem unknown_tool_error_continues_witness :
    let z : UsageStats := { total_tokens := 0, total_cost := 0, requests_count := 0,
                            current_context_tokens := 0 }
    let s0 : AgentCore := { mode := AgentMode.PLAN, tools := [], messages := [],
                            usage_stats := z }
    let tc : ToolCall := { id := some "x", name := "ghost", arguments := some [] }
    let c2 : ToolCall := { id := some "y", name := "ghost2", arguments := some [] }
    tc.arguments = some []
    ∧ lookupTool s0.tools tc.name = none
    ∧ (act s0 [tc, c2]).2
        = Except.ok (actRecord s0.tools tc :: [c2].map (actRecord s0.tools))
    ∧ (actMessage s0.tools tc).content = "Tool Error: " ++ quoteName tc.name := by
  intro z s0 tc c2
  have happ := unknown_tool_error_continues s0 tc [c2] [] rfl rfl (by decide)
  exact ⟨rfl, rfl, happ.1, happ.2.2.1⟩

end OpsPilot
